import Mathlib

/-!
Verification of the meteo-bretagne-vfr decoders.

Shallow embedding of the pure decoding/classification functions of the
repository (`METAR.py`, `weather.py`, `web_app.py`) and proofs about them.

Strings are modelled as `List Char`.  The Python regular-expression searches
used by the source are embedded as explicit, executable matchers with the
exact semantics of the patterns involved (leftmost search, word boundaries,
greedy/lazy repetition as analysed per pattern).  Character classes (`\d`,
`\w`, `\s`) are modelled over their ASCII range, which is the alphabet of
METAR/TAF reports.  Python `float` arithmetic is modelled by `ℚ`; for every
comparison performed by the code the rational value is far enough from the
decision thresholds that this is faithful.  A Python exception is modelled
by `Except PyExc`.
-/

/-- Python exceptions that the embedded code can raise. -/
inductive PyExc where
  | zeroDivisionError
  | valueError
deriving DecidableEq, Repr

/-- ASCII decimal digit (regex `\d` on report text). -/
def isDigitCh (c : Char) : Bool := '0' ≤ c && c ≤ '9'

/-- Regex word character `\w` (ASCII letters, digits, underscore). -/
def isWordCh (c : Char) : Bool := c.isAlphanum || c = '_'

/-- Regex whitespace `\s` (ASCII range). -/
def isSpaceCh (c : Char) : Bool :=
  c = ' ' || c = '\t' || c = '\n' || c = '\x0d' || c = '\x0c' || c = '\x0b'

/-- Python `str.upper()` on the ASCII range (report text alphabet). -/
def upperAscii (c : Char) : Char :=
  if 'a' ≤ c && c ≤ 'z' then Char.ofNat (c.toNat - 32) else c

/-- Value of a decimal digit character. -/
def digitVal (c : Char) : Nat := c.toNat - 48

/-- Numeric value of a digit string (Python `int(...)` on a digit run). -/
def digitsToNat (l : List Char) : Nat := l.foldl (fun a c => 10 * a + digitVal c) 0

/-- Split a maximal leading run of digits (greedy `\d+`/`\d*`). -/
def splitDigits : List Char → List Char × List Char
  | [] => ([], [])
  | c :: cs =>
    if isDigitCh c then
      let p := splitDigits cs
      (c :: p.1, p.2)
    else ([], c :: cs)

/-- Split a maximal leading run of whitespace (greedy `\s+`/`\s*`). -/
def splitSpaces : List Char → List Char × List Char
  | [] => ([], [])
  | c :: cs =>
    if isSpaceCh c then
      let p := splitSpaces cs
      (c :: p.1, p.2)
    else ([], c :: cs)

/-- Character at position `i`, if any. -/
def chAt (s : List Char) (i : Nat) : Option Char := s.get? i

/-- Is the character at `i` a word character (out of range counts as no)? -/
def wordAt (s : List Char) (i : Nat) : Bool :=
  match chAt s i with
  | some c => isWordCh c
  | none => false

/-- Is the character at `i` a digit (out of range counts as no)? -/
def digitAt (s : List Char) (i : Nat) : Bool :=
  match chAt s i with
  | some c => isDigitCh c
  | none => false

/-- A regex word boundary `\b` holds before position `i`, for a pattern whose
first character is a word character: `i` is the start of the string or the
previous character is not a word character. -/
def boundaryBefore (s : List Char) (i : Nat) : Bool :=
  i == 0 || !wordAt s (i - 1)

/-- Smallest `i < n` with `p i`, if any (leftmost regex search position). -/
def searchIdx (p : Nat → Bool) : Nat → Option Nat
  | 0 => none
  | n + 1 =>
    match searchIdx p n with
    | some i => some i
    | none => if p n then some n else none

/-- Does the pattern `\b(\d{4})\b` of `METAR.py` (`re.search(r'\b(\d{4})\b', metar)`)
match at position `i`?  Since `\d` and the trailing `\b` anchor are
length-determined there is no backtracking: four digits bounded by
non-word characters (or the ends of the string). -/
def matchFourAt (s : List Char) (i : Nat) : Bool :=
  boundaryBefore s i && digitAt s i && digitAt s (i + 1) && digitAt s (i + 2)
    && digitAt s (i + 3) && !wordAt s (i + 4)

/-- Start position of the leftmost `\b(\d{4})\b` match. -/
def findFourIdx (s : List Char) : Option Nat :=
  searchIdx (matchFourAt s) s.length

/-- The numeric value of the four digits starting at `i`. -/
def fourDigitsAt (s : List Char) (i : Nat) : Nat :=
  digitsToNat ((s.drop i).take 4)

/-- `re.search(r'\b(\d{4})\b', s)`: value of group 1 of the leftmost match. -/
def searchFour (s : List Char) : Option Nat :=
  (findFourIdx s).map (fourDigitsAt s)

/-- Does `SM` followed by a word boundary start this suffix? -/
def smTail : List Char → Bool
  | 'S' :: 'M' :: r =>
    match r with
    | [] => true
    | c :: _ => !isWordCh c
  | _ => false

/-- Match of `\b(\d+(?:/\d+)?)SM\b` at position `i`, returning the captured
numerator and optional denominator.  The greedy `\d+` runs admit no shorter
alternative (a digit can continue neither `/` nor `S`), and if `/` is present
the denominator run and the literal `SM` are forced, so the engine's
backtracking never changes the outcome: the match at a position is unique. -/
def trySMAt (s : List Char) (i : Nat) : Option (Nat × Option Nat) :=
  if boundaryBefore s i then
    match splitDigits (s.drop i) with
    | ([], _) => none
    | (ds, rest) =>
      match rest with
      | '/' :: r2 =>
        match splitDigits r2 with
        | ([], _) => none
        | (ds2, r3) =>
          if smTail r3 then some (digitsToNat ds, some (digitsToNat ds2)) else none
      | _ => if smTail rest then some (digitsToNat ds, none) else none
  else none

/-- `re.search(r'\b(\d+(?:/\d+)?)SM\b', s)`: captured groups of the leftmost
match. -/
def searchSM (s : List Char) : Option (Nat × Option Nat) :=
  (searchIdx (fun i => (trySMAt s i).isSome) s.length).bind (trySMAt s)

/-- Match of `\b(BKN|OVC)(\d{3})\b` at position `i`, returning the ceiling
height in feet (`int(group 2) * 100`).  Because every character of a match is
a word character, no match can start strictly inside another one (the `\b`
would fail), so the set of `finditer` matches is exactly the set of positions
where this matcher succeeds. -/
def tryCloudAt (s : List Char) (i : Nat) : Option Nat :=
  if boundaryBefore s i
      && ("BKN".data.isPrefixOf (s.drop i) || "OVC".data.isPrefixOf (s.drop i))
      && digitAt s (i + 3) && digitAt s (i + 4) && digitAt s (i + 5)
      && !wordAt s (i + 6) then
    some (digitsToNat ((s.drop (i + 3)).take 3) * 100)
  else none

/-- Heights of all `\b(BKN|OVC)(\d{3})\b` matches, in textual order
(`cloud_pattern.finditer(metar)` of `parse_metar_vfr`). -/
def cloudHeights (s : List Char) : List Nat :=
  (List.range s.length).filterMap (tryCloudAt s)

/-- The ceiling accumulation loop of `parse_metar_vfr`:
`if ceiling_ft is None or height < ceiling_ft: ceiling_ft = height`. -/
def foldCeiling (heights : List Nat) : Option Nat :=
  heights.foldl
    (fun acc h =>
      match acc with
      | none => some h
      | some c => if h < c then some h else some c)
    none

/-- Substring containment on character lists (Python `pat in s`). -/
def containsSub (pat : List Char) : List Char → Bool
  | [] => pat.isEmpty
  | c :: cs => pat.isPrefixOf (c :: cs) || containsSub pat cs

/-- `'CAVOK' in metar` (substring containment). -/
def containsCAVOK (s : List Char) : Bool := containsSub "CAVOK".data s

/-- The visibility block of `parse_metar_vfr` (`METAR.py` lines 364–380):
first the statute-mile pattern, else the four-digit meters pattern with the
conversion factor `0.000621371`; a fractional statute-mile group performs a
Python float division, which raises `ZeroDivisionError` on denominator 0. -/
def parseVisibility (metar : List Char) : Except PyExc (Option ℚ) :=
  match searchSM metar with
  | some (num, some denom) =>
    if denom = 0 then .error .zeroDivisionError
    else .ok (some ((num : ℚ) / (denom : ℚ)))
  | some (num, none) => .ok (some (num : ℚ))
  | none =>
    match searchFour metar with
    | some meters => .ok (some ((meters : ℚ) * (621371 / 1000000000)))
    | none => .ok none

/-- The ceiling block of `parse_metar_vfr` (`METAR.py` lines 382–388). -/
def parseCeiling (metar : List Char) : Option Nat :=
  foldCeiling (cloudHeights metar)

/-- The flight-category block of `parse_metar_vfr` (`METAR.py` lines 390–403). -/
def flightCategoryOf (visibility_sm : Option ℚ) (ceiling_ft : Option Nat) : Option String :=
  if visibility_sm.isSome || ceiling_ft.isSome then
    let vis := visibility_sm.getD 10
    let ceil := ceiling_ft.getD 10000
    some (if 5 ≤ vis ∧ 3000 ≤ ceil then "VFR"
          else if 3 ≤ vis ∧ 1000 ≤ ceil then "MVFR"
          else if 1 ≤ vis ∧ 500 ≤ ceil then "IFR"
          else "LIFR")
  else none

/-- `parse_metar_vfr` (`METAR.py` lines 350–405).  Returns
`(visibility_sm, ceiling_ft, flight_category)`; `none` input or the empty
string model Python's `if not metar_raw`. -/
def parse_metar_vfr (metar_raw : Option String) :
    Except PyExc (Option ℚ × Option Nat × Option String) :=
  match metar_raw with
  | none => .ok (none, none, none)
  | some raw =>
    if raw = "" then .ok (none, none, none)
    else
      let metar := raw.data.map upperAscii
      if containsCAVOK metar then .ok (some 10, none, some "CAVOK")
      else
        match parseVisibility metar with
        | .error e => .error e
        | .ok visibility_sm =>
          let ceiling_ft := parseCeiling metar
          .ok (visibility_sm, ceiling_ft, flightCategoryOf visibility_sm ceiling_ft)

/-- `calculate_vfr_score` (`METAR.py` lines 408–423). -/
def calculate_vfr_score (flight_category : Option String) (metar_raw : Option String) : Nat :=
  match metar_raw with
  | none => 0
  | some raw =>
    if raw = "" then 0
    else if flight_category = some "CAVOK" then 5
    else if flight_category = some "VFR" then 4
    else if flight_category = some "MVFR" then 3
    else if flight_category = some "IFR" then 2
    else if flight_category = some "LIFR" then 1
    else 0

/-- The result dictionary of `decode_metar_raw` (`weather.py` lines 106–138):
the function builds a dict with exactly the keys `cavok`, `ceiling_ft`,
`clouds`, `rvr` and assigns no other key, so it is a fixed record. -/
structure MetarRawDecode where
  cavok : Bool
  ceiling_ft : Option Nat
  clouds : Option String
  rvr : Option String
deriving DecidableEq, Repr

/-- Leading cloud-group alternation `(FEW|SCT|BKN|OVC)` of
`decode_metar_raw`'s pattern (no word boundary). -/
def takeTag (l : List Char) : Option (String × List Char) :=
  if "FEW".data.isPrefixOf l then some ("FEW", l.drop 3)
  else if "SCT".data.isPrefixOf l then some ("SCT", l.drop 3)
  else if "BKN".data.isPrefixOf l then some ("BKN", l.drop 3)
  else if "OVC".data.isPrefixOf l then some ("OVC", l.drop 3)
  else none

/-- Match of `(FEW|SCT|BKN|OVC)(\d{3})(CB|TCU)?` at the head of the list,
returning the three captured groups (the third is `''` when absent, as in
`re.findall`) and the continuation suffix for the non-overlapping scan. -/
def tryLayer (l : List Char) : Option ((String × String × String) × List Char) :=
  match takeTag l with
  | none => none
  | some (tag, r1) =>
    match r1 with
    | a :: b :: c :: r2 =>
      if isDigitCh a && isDigitCh b && isDigitCh c then
        match r2 with
        | 'C' :: 'B' :: r3 => some ((tag, ⟨[a, b, c]⟩, "CB"), r3)
        | 'T' :: 'C' :: 'U' :: r3 => some ((tag, ⟨[a, b, c]⟩, "TCU"), r3)
        | _ => some ((tag, ⟨[a, b, c]⟩, ""), r2)
      else none
    | _ => none

/-- `re.findall`/`re.finditer` scan: repeatedly try the matcher at the
current position, emitting a match and resuming after its end, else advance
one character.  `fuel` bounds the recursion; since every step strictly
shortens the list, `fuel = length` is enough. -/
def reScan (tr : List Char → Option (α × List Char)) : Nat → List Char → List α
  | 0, _ => []
  | _, [] => []
  | fuel + 1, c :: cs =>
    match tr (c :: cs) with
    | some (a, rest) => a :: reScan tr fuel rest
    | none => reScan tr fuel cs

/-- `cloud_re.findall(raw)` of `decode_metar_raw`. -/
def findallLayers (s : List Char) : List (String × String × String) :=
  reScan tryLayer s.length s

/-- Four leading digits, as a list, if present. -/
def take4Digits (l : List Char) : Option (List Char) :=
  match l with
  | a :: b :: c :: d :: _ =>
    if isDigitCh a && isDigitCh b && isDigitCh c && isDigitCh d then
      some [a, b, c, d]
    else none
  | _ => none

/-- Group 3 of the RVR pattern, `[MP]?\d{4}`, at the head of the list.
If `M`/`P` is present the four digits must follow (removing the letter would
leave it under `\d`, so backtracking cannot succeed either). -/
def rvrValue (l : List Char) : Option String :=
  match l with
  | c :: rest =>
    if c = 'M' || c = 'P' then
      (take4Digits rest).map (fun ds => ⟨c :: ds⟩)
    else (take4Digits l).map (fun ds => ⟨ds⟩)
  | [] => none

/-- Match of `R(\d{2,4})(L|R|C)?/([MP]?\d{4})(V[MP]?\d{4})?` at the head of
the list, returning group 3.  `\d{2,4}` is greedy; a shortened run leaves a
digit next, which can continue neither `(L|R|C)?` nor `/`, so only the full
run (of length 2–4) can succeed; likewise dropping a present `(L|R|C)`
letter cannot help.  The trailing optional group never affects group 3. -/
def tryRVRAt (l : List Char) : Option String :=
  match l with
  | 'R' :: r1 =>
    let p := splitDigits r1
    if 2 ≤ p.1.length && p.1.length ≤ 4 then
      let r2 :=
        match p.2 with
        | c :: rest => if c = 'L' || c = 'R' || c = 'C' then rest else p.2
        | [] => p.2
      match r2 with
      | '/' :: r3 => rvrValue r3
      | _ => none
    else none
  | _ => none

/-- Leftmost-match search (`re.search`) for a matcher that cannot match the
empty suffix. -/
def searchFirst (tr : List Char → Option α) : List Char → Option α
  | [] => none
  | c :: cs =>
    match tr (c :: cs) with
    | some a => some a
    | none => searchFirst tr cs

/-- Is the layer's coverage `BKN` or `OVC` (`typ in ('BKN', 'OVC')`)? -/
def isBknOvc (lay : String × String × String) : Bool :=
  lay.1 = "BKN" || lay.1 = "OVC"

/-- `decode_metar_raw` (`weather.py` lines 106–138).  `none` input or the
empty string model Python's `if not raw`.  The ceiling loop breaks at the
first `BKN`/`OVC` layer (`int` on three digits cannot fail, so the
`try`/`except` is inert). -/
def decode_metar_raw (raw : Option String) : MetarRawDecode :=
  match raw with
  | none => ⟨false, none, none, none⟩
  | some r =>
    if r = "" then ⟨false, none, none, none⟩
    else
      let s := r.data.map upperAscii
      if containsCAVOK s then ⟨true, none, some "CAVOK", none⟩
      else
        let layers := findallLayers s
        let clouds :=
          if layers.isEmpty then none
          else some (String.intercalate ","
            (layers.map (fun l => l.1 ++ l.2.1 ++ l.2.2)))
        let ceiling := (layers.find? isBknOvc).map (fun l => digitsToNat l.2.1.data * 100)
        let rvr := searchFirst tryRVRAt s
        ⟨false, ceiling, clouds, rvr⟩

/-- The 16-point compass rose of `get_wind_direction_name`. -/
def directions : List String :=
  ["N", "NNE", "NE", "ENE", "E", "ESE", "SE", "SSE",
   "S", "SSW", "SW", "WSW", "W", "WNW", "NW", "NNW"]

/-- Python `int(...)` on the direction strings the decoder produces: an
optional sign followed by decimal digits (surrounding whitespace and digit
separators, which no decoder output contains, are not modelled); any other
string raises `ValueError`. -/
def pyInt (s : String) : Option Int :=
  match s.data with
  | '-' :: ds => if ds ≠ [] && ds.all isDigitCh then some (-(digitsToNat ds : Int)) else none
  | '+' :: ds => if ds ≠ [] && ds.all isDigitCh then some (digitsToNat ds : Int) else none
  | ds => if ds ≠ [] && ds.all isDigitCh then some (digitsToNat ds : Int) else none

/-- Python `round` on an exact rational value: nearest integer, ties to
even.  (`deg / 22.5` in binary floating point never lands exactly on a
half-integer for the integer `deg` in question, so the exact-rational model
agrees with the float computation.) -/
def pyRound (q : ℚ) : Int :=
  let f := ⌊q⌋
  if q - f < 1 / 2 then f
  else if (1 : ℚ) / 2 < q - f then f + 1
  else if f % 2 = 0 then f else f + 1

/-- `get_wind_direction_name` (`METAR.py` lines 847–856). -/
def get_wind_direction_name (direction : String) : Except PyExc String :=
  if direction = "VRB" then .ok "Variable"
  else
    match pyInt direction with
    | none => .error .valueError
    | some deg => .ok (directions.getD ((pyRound ((deg : ℚ) / (45 / 2))) % 16).toNat "")

/-- Does one of the change keywords of the lookahead
`(?:TEMPO|BECMG|FM|PROB\d+)` start this suffix? -/
def kwHead (l : List Char) : Bool :=
  "TEMPO".data.isPrefixOf l || "BECMG".data.isPrefixOf l || "FM".data.isPrefixOf l
    || ("PROB".data.isPrefixOf l &&
        match l.drop 4 with
        | c :: _ => isDigitCh c
        | [] => false)

/-- The lookahead `(?=\s+(?:TEMPO|BECMG|FM|PROB\d+))` at this position: at
least one whitespace character, then (after the greedy run, which cannot eat
into the letter-initial keywords) a keyword. -/
def kwAfterSpaces (l : List Char) : Bool :=
  match l with
  | c :: cs => isSpaceCh c && kwHead (cs.dropWhile isSpaceCh)
  | [] => false

/-- The lazy tail `(.*?)(?=\s+(?:TEMPO|BECMG|FM|PROB\d+)|$)` with `re.DOTALL`:
consume as little as possible, stopping at the first position where the
keyword lookahead holds, or at the end of the string.  Returns the captured
text and the suffix at the stop position (the `finditer` resume point, since
the lookahead consumes nothing). -/
def lazySplit : List Char → List Char × List Char
  | [] => ([], [])
  | c :: cs =>
    if kwAfterSpaces (c :: cs) then ([], c :: cs)
    else
      let p := lazySplit cs
      (c :: p.1, p.2)

/-- Python `str.strip()` (whitespace from both ends). -/
def pyStrip (l : List Char) : List Char :=
  ((l.dropWhile isSpaceCh).reverse.dropWhile isSpaceCh).reverse

/-- Is this the nine-character shape `\d{4}/\d{4}`? -/
def isPeriodShape (p : List Char) : Bool :=
  match p with
  | [a, b, c, d, s, e, f, g, h] =>
    isDigitCh a && isDigitCh b && isDigitCh c && isDigitCh d && s = '/'
      && isDigitCh e && isDigitCh f && isDigitCh g && isDigitCh h
  | _ => false

/-- Consume a leading `(\d{4}/\d{4})` group, returning the captured text and
the suffix. -/
def take4slash4 (l : List Char) : Option (String × List Char) :=
  if isPeriodShape (l.take 9) then some (⟨l.take 9⟩, l.drop 9) else none

/-- One TEMPO or BECMG period as decoded by `decode_taf_detailed`
(`tempo_data['period']`, and the condition text handed to
`parse_taf_conditions`; the further condition fields do not bear on the
period segmentation). -/
structure TafPeriodData where
  period : String
  conditions : String
deriving DecidableEq, Repr

/-- One PROB period as decoded by `decode_taf_detailed`. -/
structure ProbPeriodData where
  probability : String
  period : String
  conditions : String
deriving DecidableEq, Repr

/-- Match of `KW\s+(\d{4}/\d{4})\s+(.*?)(?=\s+(?:TEMPO|BECMG|FM|PROB\d+)|$)`
(with `KW` the literal `TEMPO` or `BECMG`; note: no word boundary before the
keyword) at the head of the list.  The greedy `\s+` runs cannot give
characters back (neither a digit nor the lazy tail's stop condition starts
with whitespace being required), and the lazy tail always completes at `$`,
so the match at a position is unique. -/
def tryChange (kw : String) (l : List Char) : Option (TafPeriodData × List Char) :=
  if kw.data.isPrefixOf l then
    let sp := splitSpaces (l.drop kw.length)
    if sp.1.isEmpty then none
    else
      match take4slash4 sp.2 with
      | none => none
      | some (per, r2) =>
        let sp2 := splitSpaces r2
        if sp2.1.isEmpty then none
        else
          let lz := lazySplit sp2.2
          some (⟨per, ⟨pyStrip lz.1⟩⟩, lz.2)
  else none

/-- Match of
`PROB(\d+)\s+(?:TEMPO\s+)?(\d{4}/\d{4})\s+(.*?)(?=\s+(?:TEMPO|BECMG|FM|PROB\d+)|$)`
at the head of the list.  If `TEMPO` followed by whitespace is present the
optional group consumes it greedily; backtracking to skip it cannot succeed,
as `\d{4}` then faces the letter `T`. -/
def tryProb (l : List Char) : Option (ProbPeriodData × List Char) :=
  if "PROB".data.isPrefixOf l then
    let pd := splitDigits (l.drop 4)
    if pd.1.isEmpty then none
    else
      let sp := splitSpaces pd.2
      if sp.1.isEmpty then none
      else
        let afterTempo :=
          if "TEMPO".data.isPrefixOf sp.2 &&
              !(splitSpaces ((sp.2).drop 5)).1.isEmpty then
            (splitSpaces ((sp.2).drop 5)).2
          else sp.2
        match take4slash4 afterTempo with
        | none => none
        | some (per, r2) =>
          let sp2 := splitSpaces r2
          if sp2.1.isEmpty then none
          else
            let lz := lazySplit sp2.2
            some (⟨⟨pd.1⟩, per, ⟨pyStrip lz.1⟩⟩, lz.2)
  else none

/-- Match of the base-period pattern
`(\d{4}/\d{4})\s+(.*?)(?=\s+(?:TEMPO|BECMG|FM|PROB\d+)|$)` at the head of
the list (used with `re.search`, so only the leftmost match is taken). -/
def tryBase (l : List Char) : Option TafPeriodData :=
  match take4slash4 l with
  | none => none
  | some (per, r) =>
    let sp := splitSpaces r
    if sp.1.isEmpty then none
    else
      let lz := lazySplit sp.2
      some ⟨per, ⟨pyStrip lz.1⟩⟩

/-- `re.finditer` scan annotated with character positions: each emitted
element carries the start and end offsets of its match.  `fuel = length`
suffices since every step strictly shortens the list. -/
def reScanPos (tr : List Char → Option (α × List Char)) :
    Nat → Nat → List Char → List (Nat × Nat × α)
  | 0, _, _ => []
  | _, _, [] => []
  | fuel + 1, pos, c :: cs =>
    match tr (c :: cs) with
    | some (a, rest) =>
      (pos, pos + ((c :: cs).length - rest.length), a) ::
        reScanPos tr fuel (pos + ((c :: cs).length - rest.length)) rest
    | none => reScanPos tr fuel (pos + 1) cs

/-- The period lists of `decode_taf_detailed` (`web_app.py` lines 312–385):
the base period from `re.search`, and the TEMPO, BECMG and PROB lists from
three independent `re.finditer` sweeps.  (The header fields `icao`,
`issue_*` and `valid_*` of the returned dict do not bear on the period
segmentation and are not modelled.) -/
structure TafDecoded where
  base_conditions : Option TafPeriodData
  tempo_periods : List TafPeriodData
  becmg_periods : List TafPeriodData
  prob_periods : List ProbPeriodData
deriving DecidableEq, Repr

/-- `decode_taf_detailed` (`web_app.py` lines 312–385), period lists. -/
def decode_taf_detailed (taf : String) : TafDecoded :=
  let u := taf.data.map upperAscii
  { base_conditions := searchFirst tryBase u
    tempo_periods := (reScanPos (tryChange "TEMPO") u.length 0 u).map (fun x => x.2.2)
    becmg_periods := (reScanPos (tryChange "BECMG") u.length 0 u).map (fun x => x.2.2)
    prob_periods := (reScanPos tryProb u.length 0 u).map (fun x => x.2.2) }

/-- The flight-category rule as the spec states it (§4.3): substitute
default visibility 10.0 and default ceiling 10000, then apply the threshold
ladder.  Stated from the spec's words, for comparison with
`flightCategoryOf`. -/
def specFlightCategory (v : Option ℚ) (c : Option Nat) : String :=
  if 5 ≤ v.getD 10 ∧ 3000 ≤ c.getD 10000 then "VFR"
  else if 3 ≤ v.getD 10 ∧ 1000 ≤ c.getD 10000 then "MVFR"
  else if 1 ≤ v.getD 10 ∧ 500 ≤ c.getD 10000 then "IFR"
  else "LIFR"

/-! ## Helper lemmas -/

theorem containsSub_iff {p : List Char} : ∀ {l : List Char},
    containsSub p l = true ↔ p <:+: l := by
  intro l
  induction l with
  | nil => simp [containsSub, List.isEmpty_iff, List.infix_nil]
  | cons c cs ih =>
    simp [containsSub, List.infix_cons_iff, List.isPrefixOf_iff_prefix, ih]

theorem containsCAVOK_of_contains {raw : String}
    (h : containsSub "CAVOK".data raw.data = true) :
    containsCAVOK (raw.data.map upperAscii) = true := by
  have hinf : "CAVOK".data <:+: raw.data := containsSub_iff.mp h
  have : "CAVOK".data.map upperAscii <:+: raw.data.map upperAscii := hinf.map upperAscii
  have hid : "CAVOK".data.map upperAscii = "CAVOK".data := by decide
  rw [hid] at this
  exact containsSub_iff.mpr this

theorem ne_empty_of_containsCAVOK {raw : String}
    (h : containsCAVOK (raw.data.map upperAscii) = true) : raw ≠ "" := by
  intro he
  subst he
  exact absurd h (by decide)

/-- Shared: the CAVOK short-circuit of `parse_metar_vfr` (`METAR.py`
lines 360–362). -/
theorem parse_cavok_of_contains (raw : String)
    (h : containsCAVOK (raw.data.map upperAscii) = true) :
    parse_metar_vfr (some raw) = .ok (some 10, none, some "CAVOK") := by
  have hne : raw ≠ "" := ne_empty_of_containsCAVOK h
  simp [parse_metar_vfr, hne, h]

/-! ## C9 -/

/-- C9: `decode_metar_raw` always returns the fixed four-field record
(`cavok`, `ceiling_ft`, `clouds`, `rvr` — the `MetarRawDecode` type), and on
a `None` or empty input it returns
`{'cavok': False, 'ceiling_ft': None, 'clouds': None, 'rvr': None}` without
raising. -/
theorem decode_metar_raw_empty_defaults :
    decode_metar_raw none = ⟨false, none, none, none⟩ ∧
    decode_metar_raw (some "") = ⟨false, none, none, none⟩ :=
  ⟨rfl, rfl⟩

/-! ## C4 -/

/-- C4 (code bug): on the input `'1/0SM'` the fractional statute-mile group
is captured and `float('1') / float('0')` raises `ZeroDivisionError`, so
`parse_metar_vfr` does *not* return a result for every input string. -/
theorem parse_metar_vfr_zero_denom_raises :
    parse_metar_vfr (some "1/0SM") = .error .zeroDivisionError := rfl

/-! ## C1 -/

/-- C1 (counterexample): `"METAR LFRB NOSIG"` is non-empty, has no CAVOK,
no statute-mile group, no standalone 4-digit token and no BKN/OVC layer,
yet `parse_metar_vfr` returns category `None` (not `'VFR'`) and
`calculate_vfr_score` returns `0` (not `4`): the defaults are only
substituted when at least one of visibility/ceiling was decoded. -/
theorem sparse_report_scores_zero :
    containsCAVOK ("METAR LFRB NOSIG".data.map upperAscii) = false ∧
    searchSM ("METAR LFRB NOSIG".data.map upperAscii) = none ∧
    searchFour ("METAR LFRB NOSIG".data.map upperAscii) = none ∧
    cloudHeights ("METAR LFRB NOSIG".data.map upperAscii) = [] ∧
    parse_metar_vfr (some "METAR LFRB NOSIG") = .ok (none, none, none) ∧
    calculate_vfr_score none (some "METAR LFRB NOSIG") = 0 ∧
    ((none : Option String) ≠ some "VFR") ∧ (0 : Nat) ≠ 4 := by
  refine ⟨rfl, rfl, rfl, rfl, rfl, rfl, ?_, ?_⟩ <;> decide

/-- C1 (amended): for every non-empty report with no CAVOK, no recognizable
visibility group and no BKN/OVC layer, `parse_metar_vfr` returns
`(None, None, None)` and the VFR score is 0 — the Unknown outcome occurs
both for missing text and for decodable-but-sparse reports. -/
theorem sparse_report_is_unknown (raw : String)
    (hne : raw ≠ "")
    (hcav : containsCAVOK (raw.data.map upperAscii) = false)
    (hsm : searchSM (raw.data.map upperAscii) = none)
    (hfour : searchFour (raw.data.map upperAscii) = none)
    (hcloud : cloudHeights (raw.data.map upperAscii) = []) :
    parse_metar_vfr (some raw) = .ok (none, none, none) ∧
    calculate_vfr_score none (some raw) = 0 := by
  constructor
  · simp [parse_metar_vfr, hne, hcav, parseVisibility, hsm, hfour, parseCeiling,
      hcloud, foldCeiling, flightCategoryOf]
  · simp [calculate_vfr_score, hne]

/-- C1 (amended, witness). -/
theorem sparse_report_is_unknown_witness :
    parse_metar_vfr (some "METAR LFRB NOSIG") = .ok (none, none, none) ∧
    calculate_vfr_score none (some "METAR LFRB NOSIG") = 0 :=
  sparse_report_is_unknown "METAR LFRB NOSIG" (by decide) (by decide) (by decide)
    (by decide) (by decide)

/-! ## C5 -/

/-- C5: every raw report containing `CAVOK` decodes to visibility 10.0,
no ceiling, category `'CAVOK'`, and `calculate_vfr_score` gives 5. -/
theorem cavok_report_classification (raw : String)
    (h : containsSub "CAVOK".data raw.data = true) :
    parse_metar_vfr (some raw) = .ok (some 10, none, some "CAVOK") ∧
    calculate_vfr_score (some "CAVOK") (some raw) = 5 := by
  have hc := containsCAVOK_of_contains h
  refine ⟨parse_cavok_of_contains raw hc, ?_⟩
  have hne : raw ≠ "" := ne_empty_of_containsCAVOK hc
  simp [calculate_vfr_score, hne]

/-- C5 (witness). -/
theorem cavok_report_classification_witness :
    parse_metar_vfr (some "LFRB 151200Z 00000KT CAVOK 22/14 Q1018") =
      .ok (some 10, none, some "CAVOK") ∧
    calculate_vfr_score (some "CAVOK") (some "LFRB 151200Z 00000KT CAVOK 22/14 Q1018") = 5 :=
  cavok_report_classification "LFRB 151200Z 00000KT CAVOK 22/14 Q1018" (by decide)

/-! ## C8 -/

/-- C8: whenever `CAVOK` occurs anywhere in the input — also inside a
remarks section or embedded in a longer token — `parse_metar_vfr`
short-circuits to `(10.0, None, 'CAVOK')`, ignoring any visibility group or
cloud layer in the surrounding text. -/
theorem cavok_embedded_short_circuits (a b : String) :
    parse_metar_vfr (some (a ++ "CAVOK" ++ b)) = .ok (some 10, none, some "CAVOK") := by
  apply parse_cavok_of_contains
  apply containsCAVOK_of_contains
  apply containsSub_iff.mpr
  rw [String.data_append, String.data_append]
  exact List.infix_append a.data "CAVOK".data b.data

/-! ## C6 -/

theorem flightCategoryOf_eq_spec (v : Option ℚ) (c : Option Nat)
    (h : (v.isSome || c.isSome) = true) :
    flightCategoryOf v c = some (specFlightCategory v c) := by
  simp only [flightCategoryOf, h, if_true, specFlightCategory]

theorem parse_metar_vfr_ok_eq (raw : String) (hne : ¬ (raw = ""))
    (hcav : containsCAVOK (raw.data.map upperAscii) = false) (vis : Option ℚ)
    (hvis : parseVisibility (raw.data.map upperAscii) = .ok vis) :
    parse_metar_vfr (some raw) =
      .ok (vis, parseCeiling (raw.data.map upperAscii),
        flightCategoryOf vis (parseCeiling (raw.data.map upperAscii))) := by
  simp [parse_metar_vfr, hne, hcav, hvis]

theorem parse_metar_vfr_err_eq (raw : String) (hne : ¬ (raw = ""))
    (hcav : containsCAVOK (raw.data.map upperAscii) = false) (e : PyExc)
    (hvis : parseVisibility (raw.data.map upperAscii) = .error e) :
    parse_metar_vfr (some raw) = .error e := by
  simp [parse_metar_vfr, hne, hcav, hvis]

/-- C6: for every non-CAVOK report in which at least one of visibility or
ceiling was decoded, the flight category of `parse_metar_vfr` is exactly the
spec's threshold ladder applied to the decoded values with defaults 10.0 sm
and 10000 ft. -/
theorem flight_category_ladder (raw : String) (v : Option ℚ) (c : Option Nat)
    (cat : Option String)
    (hcav : containsCAVOK (raw.data.map upperAscii) = false)
    (hp : parse_metar_vfr (some raw) = .ok (v, c, cat))
    (hsome : v.isSome ∨ c.isSome) :
    cat = some (specFlightCategory v c) := by
  by_cases hne : raw = ""
  · subst hne
    simp [parse_metar_vfr] at hp
    rcases hp with ⟨hv, hc, -⟩
    subst hv; subst hc
    simp at hsome
  · rcases hvis : parseVisibility (raw.data.map upperAscii) with e | vis
    · rw [parse_metar_vfr_err_eq raw hne hcav e hvis] at hp
      exact absurd hp (by simp)
    · rw [parse_metar_vfr_ok_eq raw hne hcav vis hvis] at hp
      simp only [Except.ok.injEq, Prod.mk.injEq] at hp
      rcases hp with ⟨hv, hc, hcat⟩
      subst hv; subst hc; subst hcat
      exact flightCategoryOf_eq_spec _ _ (by rcases hsome with h | h <;> simp [h])

/-- C6 (witness). -/
theorem flight_category_ladder_witness :
    containsCAVOK ("10SM OVC002".data.map upperAscii) = false ∧
    parse_metar_vfr (some "10SM OVC002") = .ok (some 10, some 200, some "LIFR") ∧
    some "LIFR" = some (specFlightCategory (some 10) (some 200)) :=
  ⟨by decide, rfl,
    flight_category_ladder "10SM OVC002" (some 10) (some 200) (some "LIFR")
      (by decide) rfl (Or.inl rfl)⟩

/-! ## C10 -/

theorem directions_getD_mem : ∀ i : Nat, i < 16 → directions.getD i "" ∈ directions := by
  decide

theorem pyInt_digits (d : String) (hne : d.data ≠ [])
    (hd : d.data.all isDigitCh = true) :
    pyInt d = some (digitsToNat d.data : Int) := by
  unfold pyInt
  rcases hl : d.data with - | ⟨c, cs⟩
  · exact absurd hl hne
  · rw [hl] at hd
    have hc : isDigitCh c = true := by
      have := List.all_cons .. ▸ hd
      exact (Bool.and_eq_true _ _ ▸ this).1
    have hc1 : ¬ (c = '-') := by intro h; subst h; exact absurd hc (by decide)
    have hc2 : ¬ (c = '+') := by intro h; subst h; exact absurd hc (by decide)
    simp [hc1, hc2, hd]

/-- C10: `get_wind_direction_name` is total on the direction strings the
decoder produces: `'VRB'` yields `'Variable'`, and for every non-empty
digit string the index `round(deg / 22.5) % 16` lies in `0..15`, so one of
the 16 names of `directions` is returned — the table indexing never goes
out of range. -/
theorem wind_direction_name_total :
    get_wind_direction_name "VRB" = .ok "Variable" ∧
    ∀ d : String, d.data ≠ [] → d.data.all isDigitCh = true →
      (pyRound (((digitsToNat d.data : Int) : ℚ) / (45 / 2)) % 16).toNat < 16 ∧
      ∃ name ∈ directions, get_wind_direction_name d = .ok name := by
  refine ⟨rfl, ?_⟩
  intro d hne hd
  have h0 : (0 : Int) ≤ pyRound (((digitsToNat d.data : Int) : ℚ) / (45 / 2)) % 16 :=
    Int.emod_nonneg _ (by decide)
  have h16 : pyRound (((digitsToNat d.data : Int) : ℚ) / (45 / 2)) % 16 < 16 :=
    Int.emod_lt_of_pos _ (by decide)
  have hlt : (pyRound (((digitsToNat d.data : Int) : ℚ) / (45 / 2)) % 16).toNat < 16 := by
    omega
  refine ⟨hlt, directions.getD ((pyRound (((digitsToNat d.data : Int) : ℚ) / (45 / 2)) % 16)).toNat "",
    directions_getD_mem _ hlt, ?_⟩
  have hvrb : ¬ (d = "VRB") := by
    intro h; subst h; exact absurd hd (by decide)
  simp [get_wind_direction_name, hvrb, pyInt_digits d hne hd]

/-- C10 (witness): the out-of-rose value `'999'`. -/
theorem wind_direction_name_total_witness :
    get_wind_direction_name "VRB" = .ok "Variable" ∧
    ((pyRound (((digitsToNat "999".data : Int) : ℚ) / (45 / 2)) % 16).toNat < 16 ∧
      ∃ name ∈ directions, get_wind_direction_name "999" = .ok name) :=
  ⟨wind_direction_name_total.1, wind_direction_name_total.2 "999" (by decide) (by decide)⟩

/-! ## C3 -/

theorem foldCeiling_perm {l₁ l₂ : List Nat} (h : l₁.Perm l₂) :
    foldCeiling l₁ = foldCeiling l₂ := by
  unfold foldCeiling
  refine h.foldl_eq' ?_ none
  intro x hx y hy z
  rcases z with - | c
  · by_cases hxy : x < y <;> by_cases hyx : y < x <;>
      simp [hxy, hyx] <;> omega
  · by_cases hxc : x < c <;> by_cases hyc : y < c <;> by_cases hxy : x < y <;>
      by_cases hyx : y < x <;> simp [hxc, hyc, hxy, hyx] <;> omega

theorem foldCeiling_cons_spec :
    ∀ (cs : List Nat) (c : Nat), ∃ m, foldCeiling (c :: cs) = some m ∧
      (m = c ∨ m ∈ cs) ∧ m ≤ c ∧ ∀ h ∈ cs, m ≤ h := by
  intro cs
  induction cs with
  | nil => exact fun c => ⟨c, rfl, Or.inl rfl, Nat.le_refl c, by simp⟩
  | cons h t ih =>
    intro c
    have key : foldCeiling (c :: h :: t) = foldCeiling ((if h < c then h else c) :: t) := by
      simp only [foldCeiling, List.foldl]
      congr 1
      split_ifs <;> rfl
    rcases ih (if h < c then h else c) with ⟨m, hm, hmem, hle, hall⟩
    refine ⟨m, key ▸ hm, ?_, ?_, ?_⟩
    · rcases hmem with hm1 | hm2
      · split_ifs at hm1 <;> simp [hm1]
      · simp [hm2]
    · split_ifs at hle <;> omega
    · intro x hx
      rcases List.mem_cons.mp hx with hx1 | hx2
      · subst hx1
        split_ifs at hle <;> omega
      · exact hall x hx2

theorem foldCeiling_none_iff (l : List Nat) : foldCeiling l = none ↔ l = [] := by
  rcases l with - | ⟨c, cs⟩
  · simp [foldCeiling]
  · rcases foldCeiling_cons_spec cs c with ⟨m, hm, -⟩
    simp [hm]

theorem foldCeiling_min (l : List Nat) (m : Nat) (h : foldCeiling l = some m) :
    m ∈ l ∧ ∀ x ∈ l, m ≤ x := by
  rcases l with - | ⟨c, cs⟩
  · simp [foldCeiling] at h
  · rcases foldCeiling_cons_spec cs c with ⟨m', hm', hmem, hle, hall⟩
    rw [h] at hm'
    injection hm' with hm'
    subst hm'
    constructor
    · rcases hmem with h1 | h2
      · simp [h1]
      · simp [h2]
    · intro x hx
      rcases List.mem_cons.mp hx with h1 | h2
      · omega
      · exact hall x h2

/-- C3 (counterexample): in `decode_metar_raw`, the report
`"OVC030 BKN010"` yields ceiling 3000 ft — the height of the *first*
BKN/OVC layer — although the minimum height among Broken/Overcast layers is
1000 ft, so the derived ceiling is not the order-independent minimum; and a
Vertical Visibility layer (`VV001`) is recognized by neither decoder, so no
ceiling is derived from it at all. -/
theorem ceiling_not_min_counterexample :
    (decode_metar_raw (some "OVC030 BKN010")).ceiling_ft = some 3000 ∧
    cloudHeights ("OVC030 BKN010".data.map upperAscii) = [3000, 1000] ∧
    foldCeiling [3000, 1000] = some 1000 ∧
    ((some 3000 : Option Nat) ≠ some 1000) ∧
    cloudHeights ("LFRB VV001".data.map upperAscii) = [] ∧
    (decode_metar_raw (some "LFRB VV001")).ceiling_ft = none ∧
    parse_metar_vfr (some "LFRB VV001") = .ok (none, none, none) := by
  refine ⟨rfl, rfl, rfl, by decide, rfl, rfl, rfl⟩

/-- C3 (amended): in `parse_metar_vfr` the derived ceiling is the minimum
height over the BKN and OVC layers (VV layers are not recognized),
independent of the order of the layers, and is `None` when no such layer
exists; in `decode_metar_raw` the derived ceiling is instead the height of
the textually first BKN/OVC layer. -/
theorem ceiling_min_in_parse_first_in_decode :
    (∀ l₁ l₂ : List Nat, l₁.Perm l₂ → foldCeiling l₁ = foldCeiling l₂) ∧
    (∀ s : List Char, parseCeiling s = none ↔ cloudHeights s = []) ∧
    (∀ (s : List Char) (m : Nat), parseCeiling s = some m →
      m ∈ cloudHeights s ∧ ∀ x ∈ cloudHeights s, m ≤ x) ∧
    (∀ raw : String, ¬ (raw = "") →
      containsCAVOK (raw.data.map upperAscii) = false →
      (decode_metar_raw (some raw)).ceiling_ft =
        ((findallLayers (raw.data.map upperAscii)).find? isBknOvc).map
          (fun l => digitsToNat l.2.1.data * 100)) := by
  refine ⟨fun l₁ l₂ h => foldCeiling_perm h, ?_, ?_, ?_⟩
  · intro s
    exact (foldCeiling_none_iff (cloudHeights s))
  · intro s m h
    exact foldCeiling_min (cloudHeights s) m h
  · intro raw hne hcav
    simp [decode_metar_raw, hne, hcav]

/-- C3 (amended, witness). -/
theorem ceiling_min_in_parse_first_in_decode_witness :
    foldCeiling [3000, 1000] = foldCeiling [1000, 3000] ∧
    (parseCeiling ("OVC030 BKN010".data) = none ↔
      cloudHeights ("OVC030 BKN010".data) = []) ∧
    (1000 ∈ cloudHeights ("OVC030 BKN010".data) ∧
      ∀ x ∈ cloudHeights ("OVC030 BKN010".data), 1000 ≤ x) ∧
    (decode_metar_raw (some "OVC030 BKN010")).ceiling_ft =
      ((findallLayers ("OVC030 BKN010".data.map upperAscii)).find? isBknOvc).map
        (fun l => digitsToNat l.2.1.data * 100) :=
  ⟨ceiling_min_in_parse_first_in_decode.1 [3000, 1000] [1000, 3000] (by decide),
   ceiling_min_in_parse_first_in_decode.2.1 ("OVC030 BKN010".data),
   ceiling_min_in_parse_first_in_decode.2.2.1 ("OVC030 BKN010".data) 1000 rfl,
   ceiling_min_in_parse_first_in_decode.2.2.2 "OVC030 BKN010" (by decide) (by decide)⟩

/-! ## C2 -/

theorem splitDigits_snd_suffix : ∀ l : List Char, (splitDigits l).2 <:+ l := by
  intro l
  induction l with
  | nil => simp [splitDigits]
  | cons c cs ih =>
    by_cases h : isDigitCh c
    · simp only [splitDigits, h, if_true]
      exact ih.trans (List.suffix_cons c cs)
    · simp only [splitDigits, h, if_false]
      exact List.suffix_refl _

theorem splitSpaces_snd_suffix : ∀ l : List Char, (splitSpaces l).2 <:+ l := by
  intro l
  induction l with
  | nil => simp [splitSpaces]
  | cons c cs ih =>
    by_cases h : isSpaceCh c
    · simp only [splitSpaces, h, if_true]
      exact ih.trans (List.suffix_cons c cs)
    · simp only [splitSpaces, h, if_false]
      exact List.suffix_refl _

theorem lazySplit_snd_suffix : ∀ l : List Char, (lazySplit l).2 <:+ l := by
  intro l
  induction l with
  | nil => simp [lazySplit]
  | cons c cs ih =>
    by_cases h : kwAfterSpaces (c :: cs)
    · simp only [lazySplit, h, if_true]
      exact List.suffix_refl _
    · simp only [lazySplit, h, if_false]
      exact ih.trans (List.suffix_cons c cs)

theorem take4slash4_eq_drop {l : List Char} {x : String × List Char}
    (h : take4slash4 l = some x) : x.2 = l.drop 9 := by
  unfold take4slash4 at h
  split at h
  · rw [← Option.some.inj h]
  · exact absurd h (by simp)

theorem isPrefixOf_length_le {p l : List Char} (h : p.isPrefixOf l = true) :
    p.length ≤ l.length :=
  (List.isPrefixOf_iff_prefix.mp h).length_le

theorem take4slash4_length_le {A : List Char} {per : String} {r2 : List Char}
    (heq : take4slash4 A = some (per, r2)) : r2.length ≤ A.length := by
  have h3 : r2 = A.drop 9 := take4slash4_eq_drop heq
  rw [h3, List.length_drop]
  omega

theorem tryChange_shrinks (kw : String) (hk : 0 < kw.length) :
    ∀ (l : List Char) (a : TafPeriodData) (rest : List Char),
      tryChange kw l = some (a, rest) → rest.length < l.length := by
  intro l a rest h
  simp only [tryChange] at h
  split at h
  case isFalse => exact absurd h (by simp)
  case isTrue hpre =>
    split at h
    case isTrue => exact absurd h (by simp)
    case isFalse =>
      split at h
      case h_1 => exact absurd h (by simp)
      case h_2 per r2 heq =>
        split at h
        case isTrue => exact absurd h (by simp)
        case isFalse =>
          have hrest : rest = (lazySplit (splitSpaces r2).2).2 :=
            (Prod.mk.injEq .. ▸ Option.some.inj h).2.symm
          have h1 : rest.length ≤ (splitSpaces r2).2.length :=
            hrest ▸ (lazySplit_snd_suffix _).length_le
          have h2 : (splitSpaces r2).2.length ≤ r2.length :=
            (splitSpaces_snd_suffix _).length_le
          have h3 : r2 = (splitSpaces (l.drop kw.length)).2.drop 9 :=
            take4slash4_eq_drop heq
          have h4 : (splitSpaces (l.drop kw.length)).2.length ≤ (l.drop kw.length).length :=
            (splitSpaces_snd_suffix _).length_le
          have h5 : kw.data.length ≤ l.length := isPrefixOf_length_le hpre
          have h6 : kw.length = kw.data.length := rfl
          have h7 : r2.length = (splitSpaces (l.drop kw.length)).2.length - 9 := by
            rw [h3, List.length_drop]
          have h8 : (l.drop kw.length).length = l.length - kw.length :=
            List.length_drop ..
          omega

theorem tryProb_shrinks :
    ∀ (l : List Char) (a : ProbPeriodData) (rest : List Char),
      tryProb l = some (a, rest) → rest.length < l.length := by
  intro l a rest h
  simp only [tryProb] at h
  split at h
  case isFalse => exact absurd h (by simp)
  case isTrue hpre =>
    split at h
    case isTrue => exact absurd h (by simp)
    case isFalse =>
      split at h
      case isTrue => exact absurd h (by simp)
      case isFalse =>
        split at h
        case h_1 => exact absurd h (by simp)
        case h_2 per r2 heq =>
          split at h
          case isTrue => exact absurd h (by simp)
          case isFalse =>
            have hrest : rest = (lazySplit (splitSpaces r2).2).2 :=
              (Prod.mk.injEq .. ▸ Option.some.inj h).2.symm
            have h1 : rest.length ≤ (splitSpaces r2).2.length :=
              hrest ▸ (lazySplit_snd_suffix _).length_le
            have h2 : (splitSpaces r2).2.length ≤ r2.length :=
              (splitSpaces_snd_suffix _).length_le
            -- the argument of take4slash4 is a suffix of (l.drop 4)
            have harg :
                (if "TEMPO".data.isPrefixOf (splitSpaces (splitDigits (l.drop 4)).2).2 &&
                    !(splitSpaces (((splitSpaces (splitDigits (l.drop 4)).2).2).drop 5)).1.isEmpty then
                  (splitSpaces (((splitSpaces (splitDigits (l.drop 4)).2).2).drop 5)).2
                else (splitSpaces (splitDigits (l.drop 4)).2).2) <:+ l.drop 4 := by
              have hsp : (splitSpaces (splitDigits (l.drop 4)).2).2 <:+ l.drop 4 :=
                (splitSpaces_snd_suffix _).trans (splitDigits_snd_suffix _)
              split
              · exact ((splitSpaces_snd_suffix _).trans
                  ((List.drop_suffix 5 _).trans hsp))
              · exact hsp
            have h4 : r2.length ≤ (l.drop 4).length :=
              Nat.le_trans (take4slash4_length_le heq) harg.length_le
            have h8 : (l.drop 4).length = l.length - 4 := List.length_drop ..
            have h5 : "PROB".data.length ≤ l.length := isPrefixOf_length_le hpre
            simp only [List.length_cons, List.length_nil] at h5
            omega

theorem reScanPos_mem {α : Type} {tr : List Char → Option (α × List Char)}
    (htr : ∀ l a rest, tr l = some (a, rest) → rest.length < l.length) :
    ∀ (fuel pos : Nat) (l : List Char) (x : Nat × Nat × α),
      x ∈ reScanPos tr fuel pos l → pos ≤ x.1 ∧ x.1 < x.2.1 := by
  intro fuel
  induction fuel with
  | zero => intro pos l x hx; simp [reScanPos] at hx
  | succ fuel ih =>
    intro pos l x hx
    rcases l with - | ⟨c, cs⟩
    · simp [reScanPos] at hx
    · rw [reScanPos] at hx
      rcases htr' : tr (c :: cs) with - | ⟨a, rest⟩
      · rw [htr'] at hx
        have := ih (pos + 1) cs x hx
        omega
      · rw [htr'] at hx
        rcases List.mem_cons.mp hx with rfl | hmem
        · have := htr _ _ _ htr'
          simp only []
          constructor
          · exact Nat.le_refl _
          · simp only [List.length_cons] at this ⊢
            omega
        · have := ih _ rest x hmem
          omega

theorem reScanPos_pairwise {α : Type} {tr : List Char → Option (α × List Char)}
    (htr : ∀ l a rest, tr l = some (a, rest) → rest.length < l.length) :
    ∀ (fuel pos : Nat) (l : List Char),
      (reScanPos tr fuel pos l).Pairwise (fun x y => x.2.1 ≤ y.1) := by
  intro fuel
  induction fuel with
  | zero => intro pos l; simp [reScanPos]
  | succ fuel ih =>
    intro pos l
    rcases l with - | ⟨c, cs⟩
    · simp [reScanPos]
    · rw [reScanPos]
      rcases htr' : tr (c :: cs) with - | ⟨a, rest⟩
      · exact ih (pos + 1) cs
      · refine List.Pairwise.cons ?_ (ih _ rest)
        intro y hy
        have := (reScanPos_mem htr _ _ _ y hy).1
        simp only []
        omega

/-- C2 (counterexample): on a TAF whose only change group is
`PROB40 TEMPO 2712/2718`, `decode_taf_detailed` reports the window twice —
once in `prob_periods` and once more as a top-level entry of
`tempo_periods` — because the TEMPO sweep also matches the `TEMPO` keyword
inside the `PROB40 TEMPO` header. -/
theorem prob_tempo_double_reported :
    (decode_taf_detailed
      "TAF LFRB 271100Z 2712/2812 20010KT 9999 PROB40 TEMPO 2712/2718 4000 RA") =
    { base_conditions := some ⟨"2712/2812", "20010KT 9999"⟩
      tempo_periods := [⟨"2712/2718", "4000 RA"⟩]
      becmg_periods := []
      prob_periods := [⟨"40", "2712/2718", "4000 RA"⟩] } ∧
    ([⟨"2712/2718", "4000 RA"⟩] : List TafPeriodData) ≠ [] := by
  exact ⟨rfl, by decide⟩

/-- C2 (amended): within each change-keyword sweep of
`decode_taf_detailed` (TEMPO, BECMG, PROB), the reported periods appear in
left-to-right textual order with pairwise non-overlapping, non-empty source
spans; but the sweeps are independent of one another, so a window introduced
by `PROB<NN> TEMPO ddHH/ddHH` is not excluded from the TEMPO sweep and is
reported both as a PROB period and as a top-level TEMPO period. -/
theorem taf_sweeps_ordered_within_each_keyword (taf : String) :
    (∃ tl : List (Nat × Nat × TafPeriodData),
      (decode_taf_detailed taf).tempo_periods = tl.map (fun x => x.2.2) ∧
      tl.Pairwise (fun x y => x.2.1 ≤ y.1) ∧ ∀ x ∈ tl, x.1 < x.2.1) ∧
    (∃ bl : List (Nat × Nat × TafPeriodData),
      (decode_taf_detailed taf).becmg_periods = bl.map (fun x => x.2.2) ∧
      bl.Pairwise (fun x y => x.2.1 ≤ y.1) ∧ ∀ x ∈ bl, x.1 < x.2.1) ∧
    (∃ pl : List (Nat × Nat × ProbPeriodData),
      (decode_taf_detailed taf).prob_periods = pl.map (fun x => x.2.2) ∧
      pl.Pairwise (fun x y => x.2.1 ≤ y.1) ∧ ∀ x ∈ pl, x.1 < x.2.1) := by
  refine ⟨⟨_, rfl, ?_, ?_⟩, ⟨_, rfl, ?_, ?_⟩, ⟨_, rfl, ?_, ?_⟩⟩
  · exact reScanPos_pairwise (tryChange_shrinks "TEMPO" (by decide)) _ _ _
  · exact fun x hx => (reScanPos_mem (tryChange_shrinks "TEMPO" (by decide)) _ _ _ x hx).2
  · exact reScanPos_pairwise (tryChange_shrinks "BECMG" (by decide)) _ _ _
  · exact fun x hx => (reScanPos_mem (tryChange_shrinks "BECMG" (by decide)) _ _ _ x hx).2
  · exact reScanPos_pairwise tryProb_shrinks _ _ _
  · exact fun x hx => (reScanPos_mem tryProb_shrinks _ _ _ x hx).2

/-! ## C7 -/

theorem searchIdx_eq_none {p : Nat → Bool} :
    ∀ {n : Nat}, searchIdx p n = none → ∀ j, j < n → p j = false := by
  intro n
  induction n with
  | zero => intro h j hj; omega
  | succ n ih =>
    intro h j hj
    rw [searchIdx] at h
    rcases hs : searchIdx p n with - | k
    · rw [hs] at h
      by_cases hp : p n = true
      · rw [hp] at h; simp at h
      · rcases Nat.lt_succ_iff_lt_or_eq.mp hj with h1 | h1
        · exact ih hs j h1
        · subst h1; exact Bool.eq_false_iff.mpr hp
    · rw [hs] at h; simp at h

theorem searchIdx_eq_some {p : Nat → Bool} :
    ∀ {n k : Nat}, searchIdx p n = some k →
      p k = true ∧ k < n ∧ ∀ j, j < k → p j = false := by
  intro n
  induction n with
  | zero => intro k h; rw [searchIdx] at h; simp at h
  | succ n ih =>
    intro k h
    rw [searchIdx] at h
    rcases hs : searchIdx p n with - | m
    · rw [hs] at h
      by_cases hp : p n = true
      · rw [hp] at h
        simp at h
        subst h
        exact ⟨hp, Nat.lt_succ_self n, fun j hj => searchIdx_eq_none hs j hj⟩
      · simp [hp] at h
    · rw [hs] at h
      simp at h
      subst h
      have := ih hs
      exact ⟨this.1, Nat.lt_succ_of_lt this.2.1, this.2.2⟩

theorem searchIdx_exists {p : Nat → Bool} {n i : Nat} (hi : i < n) (hp : p i = true) :
    ∃ j, searchIdx p n = some j ∧ j ≤ i ∧ p j = true := by
  rcases hs : searchIdx p n with - | k
  · exact absurd hp (by rw [searchIdx_eq_none hs i hi]; simp)
  · have := searchIdx_eq_some hs
    refine ⟨k, rfl, ?_, this.1⟩
    by_contra hlt
    have : p i = false := this.2.2 i (by omega)
    rw [hp] at this
    exact Bool.true_eq_false ▸ this ▸ rfl

theorem isWordCh_of_digit {c : Char} (h : isDigitCh c = true) : isWordCh c = true := by
  have hd : c.isDigit = true := h
  simp [isWordCh, Char.isAlphanum, hd]

theorem chAt_middle (a t b : List Char) (o : Nat) (ho : o < t.length) :
    chAt (a ++ (t ++ b)) (a.length + o) = t.get? o := by
  unfold chAt
  rw [List.get?_append_right (Nat.le_add_right _ _), Nat.add_sub_cancel_left,
    List.get?_append ho]

theorem no_four_match_in_time_token (a b : List Char) (d1 d2 d3 d4 d5 d6 : Char)
    (h1 : isDigitCh d1 = true) (h2 : isDigitCh d2 = true) (h3 : isDigitCh d3 = true)
    (h4 : isDigitCh d4 = true) (h5 : isDigitCh d5 = true) (h6 : isDigitCh d6 = true)
    (i : Nat) (hi1 : a.length ≤ i) (hi2 : i < a.length + 7) :
    matchFourAt (a ++ ([d1, d2, d3, d4, d5, d6, 'Z'] ++ b)) i = false := by
  obtain ⟨o, ho, rfl⟩ : ∃ o, o < 7 ∧ i = a.length + o :=
    ⟨i - a.length, by omega, by omega⟩
  have g : ∀ o', o' < 7 →
      chAt (a ++ ([d1, d2, d3, d4, d5, d6, 'Z'] ++ b)) (a.length + o') =
        [d1, d2, d3, d4, d5, d6, 'Z'].get? o' := by
    intro o' ho'
    exact chAt_middle a _ b o' (by simp; omega)
  interval_cases o
  · have hw : wordAt (a ++ ([d1, d2, d3, d4, d5, d6, 'Z'] ++ b)) (a.length + 0 + 4) = true := by
      have e : a.length + 0 + 4 = a.length + 4 := by omega
      rw [e]
      unfold wordAt
      rw [g 4 (by omega)]
      exact isWordCh_of_digit h5
    unfold matchFourAt
    rw [hw]
    simp
  · have hw : wordAt (a ++ ([d1, d2, d3, d4, d5, d6, 'Z'] ++ b)) (a.length + 1 + 4) = true := by
      have e : a.length + 1 + 4 = a.length + 5 := by omega
      rw [e]
      unfold wordAt
      rw [g 5 (by omega)]
      exact isWordCh_of_digit h6
    unfold matchFourAt
    rw [hw]
    simp
  · have hw : wordAt (a ++ ([d1, d2, d3, d4, d5, d6, 'Z'] ++ b)) (a.length + 2 + 4) = true := by
      have e : a.length + 2 + 4 = a.length + 6 := by omega
      rw [e]
      unfold wordAt
      rw [g 6 (by omega)]
      show isWordCh 'Z' = true
      decide
    unfold matchFourAt
    rw [hw]
    simp
  · have hd : digitAt (a ++ ([d1, d2, d3, d4, d5, d6, 'Z'] ++ b)) (a.length + 3 + 3) = false := by
      have e : a.length + 3 + 3 = a.length + 6 := by omega
      rw [e]
      unfold digitAt
      rw [g 6 (by omega)]
      show isDigitCh 'Z' = false
      decide
    unfold matchFourAt
    rw [hd]
    simp
  · have hd : digitAt (a ++ ([d1, d2, d3, d4, d5, d6, 'Z'] ++ b)) (a.length + 4 + 2) = false := by
      have e : a.length + 4 + 2 = a.length + 6 := by omega
      rw [e]
      unfold digitAt
      rw [g 6 (by omega)]
      show isDigitCh 'Z' = false
      decide
    unfold matchFourAt
    rw [hd]
    simp
  · have hd : digitAt (a ++ ([d1, d2, d3, d4, d5, d6, 'Z'] ++ b)) (a.length + 5 + 1) = false := by
      have e : a.length + 5 + 1 = a.length + 6 := by omega
      rw [e]
      unfold digitAt
      rw [g 6 (by omega)]
      show isDigitCh 'Z' = false
      decide
    unfold matchFourAt
    rw [hd]
    simp
  · have hd : digitAt (a ++ ([d1, d2, d3, d4, d5, d6, 'Z'] ++ b)) (a.length + 6) = false := by
      unfold digitAt
      rw [g 6 (by omega)]
      show isDigitCh 'Z' = false
      decide
    unfold matchFourAt
    rw [hd]
    simp

theorem findFour_leftmost (s : List Char) (i : Nat) (hi : matchFourAt s i = true) :
    ∃ j, findFourIdx s = some j ∧ j ≤ i ∧ matchFourAt s j = true := by
  have hd : digitAt s i = true := by
    unfold matchFourAt at hi
    simp only [Bool.and_eq_true] at hi
    exact hi.1.1.1.1.2
  have hlen : i < s.length := by
    unfold digitAt chAt at hd
    rcases hg : s.get? i with - | c
    · rw [hg] at hd; simp at hd
    · obtain ⟨h, -⟩ := List.get?_eq_some.mp hg
      exact h
  exact searchIdx_exists hlen hi

theorem parseVisibility_meters (metar : List Char) (h : searchSM metar = none) :
    parseVisibility metar =
      .ok ((searchFour metar).map (fun m => (m : ℚ) * (621371 / 1000000000))) := by
  unfold parseVisibility
  rw [h]
  rcases hf : searchFour metar with - | m <;> simp [hf]

/-- C7: (i) no match of the visibility-in-meters pattern `\b(\d{4})\b` can
start inside a six-digit-plus-`Z` observation/issue-time token, wherever
that token sits in the report, so the time is never classified as
visibility; (ii) the search returns the *leftmost* matching position, so
only the first standalone 4-digit token can supply the value — later bare
4-digit tokens (e.g. in remarks) never do; (iii) when no `SM` group is
present the visibility of `parse_metar_vfr` is exactly that leftmost match
converted by meters × 0.000621371 (`None` if there is no match). -/
theorem time_token_never_visibility_first_four_wins :
    (∀ (a b : List Char) (d1 d2 d3 d4 d5 d6 : Char),
      isDigitCh d1 = true → isDigitCh d2 = true → isDigitCh d3 = true →
      isDigitCh d4 = true → isDigitCh d5 = true → isDigitCh d6 = true →
      ∀ i, a.length ≤ i → i < a.length + 7 →
        matchFourAt (a ++ ([d1, d2, d3, d4, d5, d6, 'Z'] ++ b)) i = false) ∧
    (∀ (s : List Char) (i : Nat), matchFourAt s i = true →
      ∃ j, findFourIdx s = some j ∧ j ≤ i ∧ matchFourAt s j = true) ∧
    (∀ metar : List Char, searchSM metar = none →
      parseVisibility metar =
        .ok ((searchFour metar).map (fun m => (m : ℚ) * (621371 / 1000000000)))) :=
  ⟨no_four_match_in_time_token, findFour_leftmost, parseVisibility_meters⟩

/-- C7 (witness): the time token `271530Z` of `LFRB 271530Z …` admits no
4-digit match at any offset (`7` shown here); in `0800 RMK 1200` the
leftmost match is taken, not the one at offset 9; and with no `SM` group the
meters conversion applies to exactly that leftmost match. -/
theorem time_token_never_visibility_witness :
    matchFourAt ("LFRB ".data ++ (['2', '7', '1', '5', '3', '0', 'Z'] ++ " 0800".data)) 7 = false ∧
    (∃ j, findFourIdx "0800 RMK 1200".data = some j ∧ j ≤ 9 ∧
      matchFourAt "0800 RMK 1200".data j = true) ∧
    parseVisibility "LFRB 271530Z NOSIG".data =
      .ok ((searchFour "LFRB 271530Z NOSIG".data).map
        (fun m => (m : ℚ) * (621371 / 1000000000))) :=
  ⟨time_token_never_visibility_first_four_wins.1 "LFRB ".data " 0800".data
      '2' '7' '1' '5' '3' '0' (by decide) (by decide) (by decide) (by decide)
      (by decide) (by decide) 7 (by decide) (by decide),
   time_token_never_visibility_first_four_wins.2.1 "0800 RMK 1200".data 9 (by decide),
   time_token_never_visibility_first_four_wins.2.2 "LFRB 271530Z NOSIG".data (by decide)⟩
